import Mathlib

/-!
Shallow embedding of the ZenithCare front-end authentication flow
(`AuthService`, `AuthInterceptor`, `DialogExampleComponent`) and proofs of
the spec's claims about it.

The embedding models:
  * browser `localStorage` as an association list with `getItem` / `setItem`
    / `removeItem` mirroring the Web Storage API;
  * the `AuthService` state (the `userSubject` BehaviorSubject value plus
    storage) as an explicit record `AppState`;
  * each HTTP-backed operation as a state transformer parameterised by the
    backend's response (`Except HttpError _`), since the backend is an
    external collaborator;
  * observable side effects (storage writes, HTTP calls, subject emissions,
    router navigations) as an ordered event trace, so ordering claims
    ("nonce deleted before the exchange is issued") are statable;
  * `Math.random()` as an ambient stream of rationals in `[0, 1)`.
-/

namespace ZenithCare

/-- The user object returned by the backend is opaque to the client
(`any` in the source); we model it as an opaque string token. -/
abbrev User := String

/-! ## Browser local storage -/

/-- Browser `localStorage` as an association list of key/value pairs. -/
abbrev Storage := List (String × String)

/-- Models `localStorage.getItem(key)`: the stored value, or `none` (JS `null`)
when the key is absent. -/
def getItem : Storage → String → Option String
  | [], _ => none
  | (k, v) :: rest, key => if k = key then some v else getItem rest key

/-- Models `localStorage.setItem(key, value)`: replaces the binding for `key`,
or appends it when absent. -/
def setItem : Storage → String → String → Storage
  | [], key, value => [(key, value)]
  | (k, v) :: rest, key, value =>
    if k = key then (key, value) :: rest else (k, v) :: setItem rest key value

/-- Models `localStorage.removeItem(key)`: drops every binding for `key`. -/
def removeItem : Storage → String → Storage
  | [], _ => []
  | (k, v) :: rest, key =>
    if k = key then removeItem rest key else (k, v) :: removeItem rest key

/-! ## Backend interface -/

/-- The body of an HTTP error response; `message` is optional
(the component reads `error.error?.message`). -/
structure ErrBody where
  message : Option String
deriving DecidableEq, Repr

/-- An HTTP error as seen by an rxjs `subscribe` error callback:
it may or may not carry a parsed body. -/
structure HttpError where
  error : Option ErrBody
deriving DecidableEq, Repr

/-- Successful response of `POST /auth/login` and `POST /auth/linkedin`. -/
structure LoginResponse where
  token : String
  user : User
deriving DecidableEq, Repr

/-- One HTTP request issued through `HttpClient`, identified by endpoint
and payload. -/
inductive BackendCall
  | login (email password : String)
  | register (userData : String)
  | linkedin (code : String)
  | profile
deriving DecidableEq, Repr

/-! ## Observable side effects -/

/-- Every externally observable side effect of the auth flow, in execution
order: storage writes, HTTP calls, `userSubject.next` emissions, and router
navigations. -/
inductive Event
  | setItem (key value : String)
  | removeItem (key : String)
  | http (call : BackendCall)
  | emit (user : Option User)
  | navigate (path : List String)
deriving DecidableEq, Repr

/-- The mutable state the auth flow touches: `localStorage`, the
`userSubject` current value, the dialog component's `loading` /
`errorMessage` fields, and the trace of side effects so far. -/
structure AppState where
  storage : Storage
  user : Option User
  loading : Bool
  errorMessage : String
  trace : List Event
deriving DecidableEq, Repr

/-- JS truthiness of a `string | null` value: `null` and `""` are falsy. -/
def truthy : Option String → Bool
  | none => false
  | some s => s ≠ ""

/-! ## AuthService -/

/-- Models `private tokenKey = 'auth_token'`. -/
def tokenKey : String := "auth_token"

/-- Models `private apiUrl = 'http://localhost:3000/api'` (AuthService). -/
def authServiceApiUrl : String := "http://localhost:3000/api"

/-- Models `this.userSubject.next(u)`: updates the subject's current value and
emits it to all subscribers. -/
def emitUser (u : Option User) (s : AppState) : AppState :=
  { s with user := u, trace := s.trace ++ [Event.emit u] }

/-- Models `setToken(token)`: `localStorage.setItem(this.tokenKey, token)`. -/
def setToken (token : String) (s : AppState) : AppState :=
  { s with storage := setItem s.storage tokenKey token
         , trace := s.trace ++ [Event.setItem tokenKey token] }

/-- Models `getToken()`: `localStorage.getItem(this.tokenKey)`. -/
def getToken (s : AppState) : Option String :=
  getItem s.storage tokenKey

/-- Models `router.navigate(path)`. -/
def navigate (path : List String) (s : AppState) : AppState :=
  { s with trace := s.trace ++ [Event.navigate path] }

/-- Models `login(email, password)`: posts to `/auth/login`; the `tap` runs only
on a successful response, persisting the token and then emitting the user.
Returns the updated state together with the observable's outcome. -/
def login (email password : String) (resp : Except HttpError LoginResponse)
    (s : AppState) : AppState × Except HttpError LoginResponse :=
  let s1 := { s with trace := s.trace ++ [Event.http (BackendCall.login email password)] }
  match resp with
  | Except.ok r => (emitUser (some r.user) (setToken r.token s1), resp)
  | Except.error _ => (s1, resp)

/-- Models `register(userData)`: posts to `/auth/register` with no `tap`; the
service state is untouched whatever the backend answers. -/
def register (userData : String) (resp : Except HttpError Unit)
    (s : AppState) : AppState × Except HttpError Unit :=
  ({ s with trace := s.trace ++ [Event.http (BackendCall.register userData)] }, resp)

/-- Models `loginWithLinkedIn(code)`: posts to `/auth/linkedin`; same `tap`
side effects as `login` on success. -/
def loginWithLinkedIn (code : String) (resp : Except HttpError LoginResponse)
    (s : AppState) : AppState × Except HttpError LoginResponse :=
  let s1 := { s with trace := s.trace ++ [Event.http (BackendCall.linkedin code)] }
  match resp with
  | Except.ok r => (emitUser (some r.user) (setToken r.token s1), resp)
  | Except.error _ => (s1, resp)

/-- Models `getUserProfile()`: gets `/users/me`; the `tap` emits the fetched user
on success and does nothing on error. -/
def getUserProfile (resp : Except HttpError User)
    (s : AppState) : AppState × Except HttpError User :=
  let s1 := { s with trace := s.trace ++ [Event.http BackendCall.profile] }
  match resp with
  | Except.ok u => (emitUser (some u) s1, resp)
  | Except.error _ => (s1, resp)

/-- Models `logout()`: removes the token, emits `null`, navigates to `/login`. -/
def logout (s : AppState) : AppState :=
  navigate ["/login"]
    (emitUser none
      { s with storage := removeItem s.storage tokenKey
             , trace := s.trace ++ [Event.removeItem tokenKey] })

/-- Models `loadUser()` (run from the AuthService constructor): if a token is
present (JS-truthy), fetch the profile and, on error, force a logout;
otherwise do nothing. -/
def loadUser (resp : Except HttpError User) (s : AppState) : AppState :=
  if truthy (getToken s) then
    let p := getUserProfile resp s
    match p.2 with
    | Except.ok _ => p.1
    | Except.error _ => logout p.1
  else s

/-! ## Random nonce generation -/

/-- Models `const chars = 'ABCDEFGHIJKLMNOPQRSTUVWXYZabcdefghijklmnopqrstuvwxyz0123456789'`. -/
def chars : String := "ABCDEFGHIJKLMNOPQRSTUVWXYZabcdefghijklmnopqrstuvwxyz0123456789"

/-- JS `s.charAt(i)`: the one-character string at index `i`, or `""` when
`i` is out of range. -/
def charAt (s : String) (i : Nat) : String :=
  match s.data.get? i with
  | some c => String.singleton c
  | none => ""

/-- Models `Math.floor(r * n)` as a natural number, for `r : ℚ` standing in for a
`Math.random()` draw. -/
def mathFloorMul (r : ℚ) (n : Nat) : Nat :=
  (Int.floor (r * (n : ℚ))).toNat

/-- Models `generateRandomString(length)`: the loop
`for (i = 0; i < length; i++) result += chars.charAt(Math.floor(Math.random() * chars.length))`,
with `Math.random()` modelled as the stream `rand` of draws in `[0, 1)`. -/
def generateRandomString (rand : Nat → ℚ) (length : Nat) : String :=
  (List.range length).foldl
    (fun result i => result ++ charAt chars (mathFloorMul (rand i) chars.length)) ""

/-! ## encodeURIComponent -/

/-- Characters `encodeURIComponent` leaves unescaped:
`A–Z a–z 0–9 - _ . ! ~ * ' ( )`. -/
def uriUnescaped (c : Char) : Bool :=
  c.isAlphanum || c = '-' || c = '_' || c = '.' || c = '!' || c = '~' ||
    c = '*' || c = Char.ofNat 39 || c = '(' || c = ')'

/-- Uppercase hexadecimal digit for `n < 16`. -/
def hexDigit (n : Nat) : Char :=
  if n < 10 then Char.ofNat (48 + n) else Char.ofNat (55 + n)

/-- The UTF-8 bytes of a character. -/
def utf8Bytes (c : Char) : List Nat :=
  let n := c.toNat
  if n < 128 then [n]
  else if n < 2048 then [192 + n / 64, 128 + n % 64]
  else if n < 65536 then [224 + n / 4096, 128 + (n / 64) % 64, 128 + n % 64]
  else [240 + n / 262144, 128 + (n / 4096) % 64, 128 + (n / 64) % 64, 128 + n % 64]

/-- JS `encodeURIComponent`: percent-encodes the UTF-8 bytes of every
character outside the unescaped set. -/
def encodeURIComponent (s : String) : String :=
  s.data.foldl
    (fun acc c =>
      if uriUnescaped c then acc.push c
      else (utf8Bytes c).foldl
        (fun acc2 b => (acc2.push '%').push (hexDigit (b / 16)) |>.push (hexDigit (b % 16)))
        acc)
    ""

/-- Models `getLinkedInAuthUrl()`: generates a 16-character nonce, persists it
under `'linkedin_state'`, and returns the LinkedIn authorization URL with
the nonce as the `state` query parameter. -/
def getLinkedInAuthUrl (rand : Nat → ℚ) (s : AppState) : AppState × String :=
  let clientId := "YOUR_LINKEDIN_CLIENT_ID"
  let redirectUri := encodeURIComponent "http://localhost:4200/login"
  let state := generateRandomString rand 16
  let s1 := { s with storage := setItem s.storage "linkedin_state" state
                   , trace := s.trace ++ [Event.setItem "linkedin_state" state] }
  (s1, "https://www.linkedin.com/oauth/v2/authorization?response_type=code&client_id="
    ++ clientId ++ "&redirect_uri=" ++ redirectUri ++ "&state=" ++ state
    ++ "&scope=r_liteprofile%20r_emailaddress")

/-! ## AuthInterceptor -/

/-- An outgoing HTTP request: URL plus header list. -/
structure HttpRequest where
  url : String
  headers : List (String × String)
deriving DecidableEq, Repr

/-- JS `s.startsWith(p)`. -/
def startsWithJS (s pre : String) : Bool :=
  List.isPrefixOf pre.data s.data

/-- Models `const apiUrl = environment.apiUrl || 'http://localhost:3000/api'`:
the configured base URL with JS `||` fallback. The `environment` file is a
configuration input, so it is a parameter here. -/
def apiUrlOf (envApiUrl : Option String) : String :=
  match envApiUrl with
  | some u => if u = "" then "http://localhost:3000/api" else u
  | none => "http://localhost:3000/api"

/-- Models `AuthInterceptor.intercept`: when the stored token is JS-truthy and the
request URL starts with the configured API base URL, clone the request with
an `Authorization: Bearer <token>` header (`setHeaders` replaces any
existing binding); otherwise forward the request unmodified. -/
def intercept (envApiUrl : Option String) (token : Option String)
    (request : HttpRequest) : HttpRequest :=
  let apiUrl := apiUrlOf envApiUrl
  let isApiUrl := startsWithJS request.url apiUrl
  match token with
  | some t =>
    if t ≠ "" ∧ isApiUrl then
      { request with headers := setItem request.headers "Authorization" ("Bearer " ++ t) }
    else request
  | none => request

/-! ## DialogExampleComponent (signpopup) -/

/-- The login form's two control values. -/
structure LoginForm where
  email : String
  password : String
deriving DecidableEq, Repr

/-- Models `Validators.required`: errors when the control value is empty. -/
def requiredError (v : String) : Bool :=
  v = ""

/-- Split a character list at every occurrence of `sep`
(the separators are dropped; used by the email shape check and by the
query-string reading of URLs). -/
def splitOnSep (sep : Char) : List Char → List (List Char)
  | [] => [[]]
  | c :: cs =>
    if c = sep then [] :: splitOnSep sep cs
    else
      match splitOnSep sep cs with
      | [] => [[c]]
      | g :: gs => (c :: g) :: gs

/-- Split a character list at the first occurrence of `sep`: everything
before it, and everything after it (all of it when `sep` is absent). -/
def breakOn (sep : Char) : List Char → List Char × List Char
  | [] => ([], [])
  | c :: cs =>
    if c = sep then ([], cs)
    else
      let p := breakOn sep cs
      (c :: p.1, p.2)

/-- A character admitted in the local part of Angular's `EMAIL_REGEXP`:
`[a-zA-Z0-9!#$%&'*+/=?^_`{|}~-]`. -/
def emailAtomChar (c : Char) : Bool :=
  c.isAlphanum || c = '!' || c = '#' || c = '$' || c = '%' || c = '&' ||
    c = Char.ofNat 39 || c = '*' || c = '+' || c = '/' || c = '=' ||
    c = '?' || c = '^' || c = '_' || c = Char.ofNat 96 || c = Char.ofNat 123 ||
    c = '|' || c = Char.ofNat 125 || c = '~' || c = '-'

/-- A DNS label of `EMAIL_REGEXP`:
`[a-zA-Z0-9]([a-zA-Z0-9-]{0,61}[a-zA-Z0-9])?`. -/
def domainLabelValid (l : List Char) : Bool :=
  match l with
  | [] => false
  | [c] => c.isAlphanum
  | c :: rest =>
    c.isAlphanum && l.length ≤ 63 &&
      rest.dropLast.all (fun x => x.isAlphanum || x = '-') &&
      (match rest.getLast? with
       | some d => d.isAlphanum
       | none => false)

/-- Models `Validators.email`, modelling Angular's `EMAIL_REGEXP`: bounded total
length, an `@` within the first 64 positions, a dot-separated local part of
atom characters, and dot-separated DNS labels. -/
def emailShapeValid (s : String) : Bool :=
  let cs := s.data
  1 ≤ cs.length && cs.length ≤ 254 &&
    ((cs.drop 1).take 64).contains '@' &&
    cs.contains '@' &&
    (let p := breakOn '@' cs
     (splitOnSep '.' p.1).all (fun atom => atom ≠ [] && atom.all emailAtomChar) &&
       (splitOnSep '.' p.2).all domainLabelValid)

/-- The email control is invalid when `required` or `email` errors
(Angular's `email` validator passes on an empty value). -/
def emailControlInvalid (v : String) : Bool :=
  requiredError v || (v ≠ "" && !emailShapeValid v)

/-- The password control is invalid when `required` or `minLength(6)`
errors (Angular's `minLength` passes on an empty value). -/
def passwordControlInvalid (v : String) : Bool :=
  requiredError v || (v ≠ "" && v.length < 6)

/-- Models `this.loginForm.invalid`: some control carries an error. -/
def loginFormInvalid (f : LoginForm) : Bool :=
  emailControlInvalid f.email || passwordControlInvalid f.password

/-- JS `x || fallback` for an optional string (`error.error?.message`). -/
def jsOrElse (o : Option String) (fallback : String) : String :=
  match o with
  | some m => if m = "" then fallback else m
  | none => fallback

/-- Models `onSubmit()`: return immediately when the form is invalid; otherwise
set `loading`, call `login`, and navigate on success or surface the
backend message on error. -/
def onSubmit (f : LoginForm) (resp : Except HttpError LoginResponse)
    (s : AppState) : AppState :=
  if loginFormInvalid f then s
  else
    let s1 := { s with loading := true }
    let p := login f.email f.password resp s1
    match p.2 with
    | Except.ok _ => navigate ["/dashboard"] p.1
    | Except.error e =>
      { p.1 with errorMessage := jsOrElse (e.error.bind ErrBody.message) "Invalid email or password"
               , loading := false }

/-- The `code` / `state` URL query parameters seen by `ngOnInit`
(`undefined` when absent). -/
structure QueryParams where
  code : Option String
  state : Option String
deriving DecidableEq, Repr

/-- Models `ngOnInit()`: when `code` and `state` are truthy and `state` equals the
persisted `linkedin_state` nonce, set `loading`, delete the nonce, and
exchange the code; navigate on success, surface a generic message on error.
Otherwise do nothing. -/
def ngOnInit (params : QueryParams) (resp : Except HttpError LoginResponse)
    (s : AppState) : AppState :=
  let savedState := getItem s.storage "linkedin_state"
  match params.code, params.state with
  | some code, some st =>
    if code ≠ "" ∧ st ≠ "" ∧ savedState = some st then
      let s1 := { s with loading := true }
      let s2 := { s1 with storage := removeItem s1.storage "linkedin_state"
                        , trace := s1.trace ++ [Event.removeItem "linkedin_state"] }
      let p := loginWithLinkedIn code resp s2
      match p.2 with
      | Except.ok _ => navigate ["/dashboard"] p.1
      | Except.error _ =>
        { p.1 with errorMessage := "LinkedIn login failed. Please try again."
                 , loading := false }
    else s
  | _, _ => s

/-! ## Query-string reading (specification side) -/

/-- The query parameters carried by a URL: the part after the first `?`,
split at `&`, each piece split at the first `=`. -/
def queryPairs (url : String) : List (String × String) :=
  let q := (breakOn '?' url.data).2
  (splitOnSep '&' q).map (fun seg =>
    let p := breakOn '=' seg
    (p.1.asString, p.2.asString))

/-! ## Concrete fixtures used by witnesses -/

/-- A fresh starting state: empty storage, no user, no prior effects. -/
def emptyState : AppState :=
  { storage := [], user := none, loading := false, errorMessage := "", trace := [] }

/-- A state holding a stale persisted token and a previously loaded user. -/
def staleTokenState : AppState :=
  { storage := [(tokenKey, "stale")], user := some "u"
  , loading := false, errorMessage := "", trace := [] }

/-- A state in which the OAuth nonce `"AbC123"` is persisted. -/
def nonceState : AppState :=
  { storage := [("linkedin_state", "AbC123")], user := none
  , loading := false, errorMessage := "", trace := [] }

/-- A state whose storage holds the token key bound to the empty string
(`localStorage.getItem` then returns `""`, which is JS-falsy). -/
def emptyTokenState : AppState :=
  { storage := [(tokenKey, "")], user := none
  , loading := false, errorMessage := "", trace := [] }

/-- A request aimed at the backend API, with no headers yet. -/
def apiRequest : HttpRequest :=
  { url := "http://localhost:3000/api/users/me", headers := [] }

/-! ## Storage lemmas -/

theorem getItem_setItem_self (st : Storage) (k v : String) :
    getItem (setItem st k v) k = some v := by
  induction st with
  | nil => simp [setItem, getItem]
  | cons p rest ih =>
    by_cases hk : p.1 = k
    · simp [setItem, hk, getItem]
    · simp [setItem, hk, getItem, ih]

theorem getItem_setItem_ne (st : Storage) (k k' v : String) (h : k' ≠ k) :
    getItem (setItem st k v) k' = getItem st k' := by
  induction st with
  | nil => simp [setItem, getItem, Ne.symm h]
  | cons p rest ih =>
    rcases p with ⟨pk, pv⟩
    by_cases hk : pk = k
    · subst hk
      simp [setItem, getItem, Ne.symm h]
    · simp [setItem, hk, getItem, ih]

theorem getItem_removeItem_self (st : Storage) (k : String) :
    getItem (removeItem st k) k = none := by
  induction st with
  | nil => simp [removeItem, getItem]
  | cons p rest ih =>
    rcases p with ⟨pk, pv⟩
    by_cases hk : pk = k
    · simp [removeItem, hk, ih]
    · simp [removeItem, hk, getItem, ih]

theorem getItem_removeItem_ne (st : Storage) (k k' : String) (h : k' ≠ k) :
    getItem (removeItem st k) k' = getItem st k' := by
  induction st with
  | nil => simp [removeItem]
  | cons p rest ih =>
    rcases p with ⟨pk, pv⟩
    by_cases hk : pk = k
    · subst hk
      simp [removeItem, getItem, ih, Ne.symm h]
    · simp [removeItem, hk, getItem, ih]

/-- C2 —
A failing profile fetch forces a logout: after `loadUser` runs with a
token present and the backend rejecting `GET /users/me`, the token is gone
from storage, the session-store user is `null`, and the trace records the
fetch followed by the token removal, the `null` emission, and the
navigation to the login view. -/
theorem C2_profile_fetch_failure_clears_session (s : AppState) (e : HttpError)
    (h : truthy (getToken s) = true) :
    getToken (loadUser (Except.error e) s) = none ∧
    (loadUser (Except.error e) s).user = none ∧
    (loadUser (Except.error e) s).trace =
      s.trace ++ [Event.http BackendCall.profile, Event.removeItem tokenKey,
        Event.emit none, Event.navigate ["/login"]] := by
  simp only [getToken] at h
  simp [loadUser, h, getUserProfile, logout, navigate, emitUser, getToken,
    getItem_removeItem_self]

/-- C2 witness at a concrete state holding an expired token. -/
theorem C2_witness :
    truthy (getToken staleTokenState) = true ∧
    getToken (loadUser (Except.error ⟨none⟩) staleTokenState) = none ∧
    (loadUser (Except.error ⟨none⟩) staleTokenState).user = none := by
  refine ⟨by decide, ?_, ?_⟩
  · exact (C2_profile_fetch_failure_clears_session staleTokenState ⟨none⟩ (by decide)).1
  · exact (C2_profile_fetch_failure_clears_session staleTokenState ⟨none⟩ (by decide)).2.1

/-- C3 —
`login` updates atomically: a successful backend response persists the
returned token and emits the returned user (both recorded on the trace),
while a rejected one leaves storage and user untouched, the trace showing
only the HTTP call. -/
theorem C3_login_all_or_nothing (email password : String) (s : AppState) :
    (∀ r : LoginResponse,
      getToken (login email password (Except.ok r) s).1 = some r.token ∧
      (login email password (Except.ok r) s).1.user = some r.user ∧
      (login email password (Except.ok r) s).1.trace =
        s.trace ++ [Event.http (BackendCall.login email password),
          Event.setItem tokenKey r.token, Event.emit (some r.user)]) ∧
    (∀ e : HttpError,
      (login email password (Except.error e) s).1.storage = s.storage ∧
      (login email password (Except.error e) s).1.user = s.user ∧
      (login email password (Except.error e) s).1.trace =
        s.trace ++ [Event.http (BackendCall.login email password)]) := by
  constructor
  · intro r
    simp [login, setToken, emitUser, getToken, getItem_setItem_self]
  · intro e
    simp [login]

/-- C7 —
`register` never touches the session: whatever the backend answers, storage
and the session-store user are exactly as before, and the only recorded
side effect is the HTTP call itself. -/
theorem C7_register_is_pure_forwarding (userData : String)
    (resp : Except HttpError Unit) (s : AppState) :
    (register userData resp s).1.storage = s.storage ∧
    (register userData resp s).1.user = s.user ∧
    (register userData resp s).1.trace =
      s.trace ++ [Event.http (BackendCall.register userData)] := by
  simp [register]

/-- C9 —
`logout` from any starting state removes the stored token, emits `null` to
session-store observers, and navigates to the login view, in that order. -/
theorem C9_logout (s : AppState) :
    getToken (logout s) = none ∧
    (logout s).user = none ∧
    (logout s).trace =
      s.trace ++ [Event.removeItem tokenKey, Event.emit none,
        Event.navigate ["/login"]] := by
  simp [logout, navigate, emitUser, getToken, getItem_removeItem_self]

/-! ## OAuth callback handling -/

/-- When the `state` query parameter fails the nonce comparison,
`ngOnInit` leaves the state entirely unchanged. -/
theorem ngOnInit_of_no_match (params : QueryParams)
    (resp : Except HttpError LoginResponse) (s : AppState)
    (h : ∀ st, params.state = some st →
      getItem s.storage "linkedin_state" ≠ some st) :
    ngOnInit params resp s = s := by
  rcases params with ⟨pcode, pstate⟩
  cases pcode with
  | none => cases pstate <;> simp [ngOnInit]
  | some code =>
    cases pstate with
    | none => simp [ngOnInit]
    | some st =>
      have hcond : ¬ (code ≠ "" ∧ st ≠ "" ∧
          getItem s.storage "linkedin_state" = some st) := by
        rintro ⟨-, -, h3⟩
        exact h st rfl h3
      simp only [ngOnInit]
      rw [if_neg hcond]

/-- C4 —
An OAuth callback whose `state` is absent or differs from the persisted
nonce is a no-op: `ngOnInit` returns the state unchanged, so no exchange
call is issued, no error is surfaced, and the persisted nonce is intact. -/
theorem C4_state_mismatch_is_noop (params : QueryParams)
    (resp : Except HttpError LoginResponse) (s : AppState)
    (h : params.state = none ∨ ∃ st, params.state = some st ∧
      getItem s.storage "linkedin_state" ≠ some st) :
    ngOnInit params resp s = s := by
  apply ngOnInit_of_no_match
  intro st hst
  rcases h with h | ⟨st2, hst2, hne⟩
  · rw [hst] at h
    exact absurd h (by simp)
  · rw [hst] at hst2
    injection hst2 with h2
    rw [← h2] at hne
    exact hne

/-- C4 witness: callback `?code=xyz&state=WRONG` against stored nonce
`"AbC123"` changes nothing. -/
theorem C4_witness :
    ngOnInit ⟨some "xyz", some "WRONG"⟩ (Except.ok ⟨"t", "u"⟩) nonceState
      = nonceState :=
  C4_state_mismatch_is_noop ⟨some "xyz", some "WRONG"⟩ (Except.ok ⟨"t", "u"⟩)
    nonceState (Or.inr ⟨"WRONG", rfl, by decide⟩)

/-- C5 —
A matching OAuth callback consumes the nonce exactly once, before the code
exchange: the trace extends with the nonce removal immediately followed by
the `/auth/linkedin` call (whatever the exchange outcome), the nonce is
gone from storage afterwards, and replaying the same callback against the
resulting state is a no-op. -/
theorem C5_nonce_single_use (code st : String)
    (resp : Except HttpError LoginResponse) (s : AppState)
    (hc : code ≠ "") (hs : st ≠ "")
    (hmatch : getItem s.storage "linkedin_state" = some st) :
    getItem (ngOnInit ⟨some code, some st⟩ resp s).storage "linkedin_state"
        = none ∧
    (ngOnInit ⟨some code, some st⟩ resp s).trace =
      s.trace ++ Event.removeItem "linkedin_state"
        :: Event.http (BackendCall.linkedin code)
        :: (match resp with
            | Except.ok r => [Event.setItem tokenKey r.token,
                Event.emit (some r.user), Event.navigate ["/dashboard"]]
            | Except.error _ => []) ∧
    (∀ resp2 : Except HttpError LoginResponse,
      ngOnInit ⟨some code, some st⟩ resp2 (ngOnInit ⟨some code, some st⟩ resp s)
        = ngOnInit ⟨some code, some st⟩ resp s) := by
  have hgone : getItem (ngOnInit ⟨some code, some st⟩ resp s).storage
      "linkedin_state" = none := by
    cases resp with
    | ok r =>
      simp only [ngOnInit, hc, hs, hmatch, loginWithLinkedIn, setToken, emitUser,
        navigate]
      simp [hc, hs, hmatch,
        getItem_setItem_ne _ tokenKey "linkedin_state" _ (by decide),
        getItem_removeItem_self]
    | error e =>
      simp [ngOnInit, hc, hs, hmatch, loginWithLinkedIn, getItem_removeItem_self]
  refine ⟨hgone, ?_, ?_⟩
  · cases resp with
    | ok r =>
      simp [ngOnInit, hc, hs, hmatch, loginWithLinkedIn, setToken, emitUser,
        navigate]
    | error e =>
      simp [ngOnInit, hc, hs, hmatch, loginWithLinkedIn]
  · intro resp2
    apply ngOnInit_of_no_match
    intro st2 hst2
    injection hst2 with h2
    rw [← h2, hgone]
    simp

/-- C5 witness: callback `?code=xyz&state=AbC123` against stored nonce
`"AbC123"`, with the exchange rejected: the nonce is deleted before the
`/auth/linkedin` call and the callback cannot validate again. -/
theorem C5_witness :
    getItem (ngOnInit ⟨some "xyz", some "AbC123"⟩ (Except.error ⟨none⟩)
        nonceState).storage "linkedin_state" = none ∧
    (ngOnInit ⟨some "xyz", some "AbC123"⟩ (Except.error ⟨none⟩)
        nonceState).trace =
      [Event.removeItem "linkedin_state",
       Event.http (BackendCall.linkedin "xyz")] :=
  ⟨(C5_nonce_single_use "xyz" "AbC123" (Except.error ⟨none⟩) nonceState
      (by decide) (by decide) (by decide)).1,
   (C5_nonce_single_use "xyz" "AbC123" (Except.error ⟨none⟩) nonceState
      (by decide) (by decide) (by decide)).2.1⟩

/-- C6 —
Submitting an invalid login form is a no-op: `onSubmit` returns before
issuing the HTTP call, so the whole state — storage, user, trace — is
unchanged. -/
theorem C6_invalid_form_no_call (f : LoginForm)
    (resp : Except HttpError LoginResponse) (s : AppState)
    (h : loginFormInvalid f = true) :
    onSubmit f resp s = s := by
  simp [onSubmit, h]

/-- C6 witness: a malformed email (no `@`) blocks submission even with a
long-enough password and a backend that would have accepted. -/
theorem C6_witness :
    loginFormInvalid ⟨"not-an-email", "123456"⟩ = true ∧
    onSubmit ⟨"not-an-email", "123456"⟩ (Except.ok ⟨"t", "u"⟩) emptyState
      = emptyState :=
  ⟨by decide,
   C6_invalid_form_no_call ⟨"not-an-email", "123456"⟩ (Except.ok ⟨"t", "u"⟩)
     emptyState (by decide)⟩

/-! ## Interceptor -/

/-- C1 counterexample —
With the token key bound to the empty string, a token *is* present in
storage (`getItem` is not `null`) and the request URL starts with the API
base URL, yet the interceptor forwards the request unmodified and no
`Authorization` header is attached: the claim's "if and only if a token is
present in storage" fails on the JS-falsy empty token. -/
theorem C1_counterexample :
    getToken emptyTokenState ≠ none ∧
    startsWithJS apiRequest.url (apiUrlOf none) = true ∧
    intercept none (getToken emptyTokenState) apiRequest = apiRequest ∧
    getItem (intercept none (getToken emptyTokenState) apiRequest).headers
      "Authorization" = none := by
  decide

/-- C1 (amended) —
The interceptor attaches `Authorization: Bearer <token>` exactly when a
*non-empty* token is present and the request URL starts with the configured
API base URL; in every other case — no token, empty token, or a foreign
origin — the request passes through unmodified. -/
theorem C1_bearer_header (envApiUrl : Option String) (token : Option String)
    (request : HttpRequest) :
    (∀ t, token = some t → t ≠ "" →
      startsWithJS request.url (apiUrlOf envApiUrl) = true →
      intercept envApiUrl token request =
        { request with
            headers := setItem request.headers "Authorization" ("Bearer " ++ t) }) ∧
    ((token = none ∨ token = some "" ∨
        startsWithJS request.url (apiUrlOf envApiUrl) = false) →
      intercept envApiUrl token request = request) := by
  constructor
  · intro t ht hne hpre
    subst ht
    simp [intercept, hne, hpre]
  · intro h
    rcases h with h | h | h
    · subst h; rfl
    · subst h; simp [intercept]
    · cases token with
      | none => rfl
      | some t =>
        simp only [intercept]
        rw [if_neg]
        rintro ⟨-, hpre⟩
        rw [h] at hpre
        exact Bool.false_ne_true hpre

/-- C1 witness: a non-empty token on an API-bound request gets the bearer
header; an absent token leaves the same request untouched. -/
theorem C1_witness :
    intercept none (some "tkn") apiRequest =
      { apiRequest with
          headers := setItem apiRequest.headers "Authorization" ("Bearer " ++ "tkn") } ∧
    intercept none none apiRequest = apiRequest :=
  ⟨(C1_bearer_header none (some "tkn") apiRequest).1 "tkn" rfl (by decide)
      (by decide),
   (C1_bearer_header none none apiRequest).2 (Or.inl rfl)⟩

/-! ## Nonce generation -/

theorem string_data_append (a b : String) : (a ++ b).data = a.data ++ b.data := rfl

theorem string_length_eq (s : String) : s.length = s.data.length := rfl

theorem string_singleton_data (c : Char) : (String.singleton c).data = [c] := rfl

theorem asString_data (s : String) : s.data.asString = s := rfl

/-- The value `Math.floor(r * n)` stays below `n` for a `Math.random()` draw
`r ∈ [0, 1)`. -/
theorem mathFloorMul_lt (r : ℚ) (n : Nat) (h0 : 0 ≤ r) (h1 : r < 1)
    (hn : 0 < n) : mathFloorMul r n < n := by
  unfold mathFloorMul
  have hnq : (0 : ℚ) < (n : ℚ) := by exact_mod_cast hn
  have hub : Int.floor (r * (n : ℚ)) < (n : ℤ) := by
    rw [Int.floor_lt]
    push_cast
    nlinarith
  have hlb : (0 : ℤ) ≤ Int.floor (r * (n : ℚ)) :=
    Int.floor_nonneg.mpr (mul_nonneg h0 (le_of_lt hnq))
  omega

/-- In-range `charAt` returns a one-character string drawn from `s`. -/
theorem charAt_of_lt (s : String) (i : Nat) (h : i < s.data.length) :
    ∃ c, c ∈ s.data ∧ charAt s i = String.singleton c := by
  unfold charAt
  rw [List.get?_eq_get h]
  exact ⟨s.data.get ⟨i, h⟩, List.get_mem _ _ _, rfl⟩

/-- The call `generateRandomString` produces exactly `n` characters, all drawn from
the 62-character alphabet `chars`, whenever every `Math.random()` draw lies
in `[0, 1)`. -/
theorem generateRandomString_spec (rand : Nat → ℚ)
    (h : ∀ i, 0 ≤ rand i ∧ rand i < 1) (n : Nat) :
    (generateRandomString rand n).length = n ∧
    ∀ c ∈ (generateRandomString rand n).data, c ∈ chars.data := by
  induction n with
  | zero => simp [generateRandomString]
  | succ n ih =>
    have hlt : mathFloorMul (rand n) chars.length < chars.data.length :=
      mathFloorMul_lt (rand n) chars.length (h n).1 (h n).2 (by decide)
    obtain ⟨c, hcmem, hca⟩ := charAt_of_lt chars _ hlt
    have hstep : generateRandomString rand (n + 1)
        = generateRandomString rand n
          ++ charAt chars (mathFloorMul (rand n) chars.length) := by
      unfold generateRandomString
      rw [List.range_succ, List.foldl_append]
      simp
    obtain ⟨ihlen, ihmem⟩ := ih
    constructor
    · rw [hstep, hca, string_length_eq, string_data_append, List.length_append,
        string_singleton_data]
      rw [← string_length_eq, ihlen]
      simp
    · intro c2 hc2
      rw [hstep, hca, string_data_append, string_singleton_data] at hc2
      rcases List.mem_append.mp hc2 with h1 | h1
      · exact ihmem c2 h1
      · rw [List.mem_singleton.mp h1]
        exact hcmem

/-- C10 —
Every nonce produced for the OAuth redirect — the value
`getLinkedInAuthUrl` persists under `'linkedin_state'` — is
`generateRandomString rand 16`: a string of exactly 16 characters, each
drawn from the 62-character alphabet of ASCII letters and digits. -/
theorem C10_nonce_shape (rand : Nat → ℚ) (s : AppState)
    (h : ∀ i, 0 ≤ rand i ∧ rand i < 1) :
    chars.data.length = 62 ∧
    (∀ c ∈ chars.data, (c.isAlpha || c.isDigit) = true) ∧
    getItem (getLinkedInAuthUrl rand s).1.storage "linkedin_state"
      = some (generateRandomString rand 16) ∧
    (generateRandomString rand 16).length = 16 ∧
    ∀ c ∈ (generateRandomString rand 16).data, c ∈ chars.data := by
  obtain ⟨hlen, hmem⟩ := generateRandomString_spec rand h 16
  refine ⟨by decide, by decide, ?_, hlen, hmem⟩
  simp [getLinkedInAuthUrl, getItem_setItem_self]

/-- C10 witness: with every `Math.random()` draw equal to `0`, the
generated nonce has length 16 and all its characters come from `chars`. -/
theorem C10_witness :
    (generateRandomString (fun _ => 0) 16).length = 16 ∧
    ∀ c ∈ (generateRandomString (fun _ => 0) 16).data, c ∈ chars.data := by
  have h := C10_nonce_shape (fun _ => 0) emptyState
    (fun _ => ⟨le_refl 0, by norm_num⟩)
  exact ⟨h.2.2.2.1, h.2.2.2.2⟩

/-! ## Query-string lemmas -/

theorem splitOnSep_of_not_mem (sep : Char) (xs : List Char) (h : sep ∉ xs) :
    splitOnSep sep xs = [xs] := by
  induction xs with
  | nil => rfl
  | cons c cs ih =>
    have hc : ¬ c = sep := fun hh => h (by rw [hh]; exact List.mem_cons_self _ _)
    have hcs : sep ∉ cs := fun hh => h (List.mem_cons_of_mem _ hh)
    simp only [splitOnSep, hc, if_false]
    rw [ih hcs]

theorem splitOnSep_append (sep : Char) (xs ys : List Char) (h : sep ∉ xs) :
    splitOnSep sep (xs ++ sep :: ys) = xs :: splitOnSep sep ys := by
  induction xs with
  | nil => simp [splitOnSep]
  | cons c cs ih =>
    have hc : ¬ c = sep := fun hh => h (by rw [hh]; exact List.mem_cons_self _ _)
    have hcs : sep ∉ cs := fun hh => h (List.mem_cons_of_mem _ hh)
    simp only [List.cons_append, List.append_eq, splitOnSep, hc, if_false]
    rw [ih hcs]

theorem breakOn_append (sep : Char) (xs ys : List Char) (h : sep ∉ xs) :
    breakOn sep (xs ++ sep :: ys) = (xs, ys) := by
  induction xs with
  | nil => simp [breakOn]
  | cons c cs ih =>
    have hc : ¬ c = sep := fun hh => h (by rw [hh]; exact List.mem_cons_self _ _)
    have hcs : sep ∉ cs := fun hh => h (List.mem_cons_of_mem _ hh)
    simp only [List.cons_append, List.append_eq, breakOn, hc, if_false]
    rw [ih hcs]

/-- C8 —
`getLinkedInAuthUrl` persists the freshly generated 16-character nonce
under `'linkedin_state'` (the trace records that single write) and returns
the LinkedIn authorization URL whose query string carries exactly the
parameters `response_type=code`, `client_id`, `redirect_uri`, `state` and
`scope`, with `state` equal to the nonce just persisted. -/
theorem C8_auth_url (rand : Nat → ℚ) (s : AppState)
    (h : ∀ i, 0 ≤ rand i ∧ rand i < 1) :
    getItem (getLinkedInAuthUrl rand s).1.storage "linkedin_state"
        = some (generateRandomString rand 16) ∧
    (getLinkedInAuthUrl rand s).1.trace
        = s.trace ++ [Event.setItem "linkedin_state" (generateRandomString rand 16)] ∧
    queryPairs (getLinkedInAuthUrl rand s).2
        = [("response_type", "code"),
           ("client_id", "YOUR_LINKEDIN_CLIENT_ID"),
           ("redirect_uri", "http%3A%2F%2Flocalhost%3A4200%2Flogin"),
           ("state", generateRandomString rand 16),
           ("scope", "r_liteprofile%20r_emailaddress")] := by
  obtain ⟨hlen, hmem⟩ := generateRandomString_spec rand h 16
  set nonce := generateRandomString rand 16 with hnonce
  refine ⟨by simp [getLinkedInAuthUrl, getItem_setItem_self]
        , by simp [getLinkedInAuthUrl], ?_⟩
  have hurl : (getLinkedInAuthUrl rand s).2
      = "https://www.linkedin.com/oauth/v2/authorization?response_type=code&client_id=YOUR_LINKEDIN_CLIENT_ID&redirect_uri=http%3A%2F%2Flocalhost%3A4200%2Flogin&state="
          ++ nonce ++ "&scope=r_liteprofile%20r_emailaddress" := by
    simp only [getLinkedInAuthUrl]
    rw [show encodeURIComponent "http://localhost:4200/login"
        = "http%3A%2F%2Flocalhost%3A4200%2Flogin" from by decide]
    rw [← hnonce]
    rw [show ("https://www.linkedin.com/oauth/v2/authorization?response_type=code&client_id=" ++ "YOUR_LINKEDIN_CLIENT_ID" ++ "&redirect_uri=" ++ "http%3A%2F%2Flocalhost%3A4200%2Flogin" ++ "&state=" : String) = "https://www.linkedin.com/oauth/v2/authorization?response_type=code&client_id=YOUR_LINKEDIN_CLIENT_ID&redirect_uri=http%3A%2F%2Flocalhost%3A4200%2Flogin&state=" from by decide]
  have hdata : (getLinkedInAuthUrl rand s).2.data
      = "https://www.linkedin.com/oauth/v2/authorization".data
        ++ '?' :: ("response_type=code&client_id=YOUR_LINKEDIN_CLIENT_ID&redirect_uri=http%3A%2F%2Flocalhost%3A4200%2Flogin&state=".data
          ++ (nonce.data ++ "&scope=r_liteprofile%20r_emailaddress".data)) := by
    rw [hurl, string_data_append, string_data_append]
    rw [show ("https://www.linkedin.com/oauth/v2/authorization?response_type=code&client_id=YOUR_LINKEDIN_CLIENT_ID&redirect_uri=http%3A%2F%2Flocalhost%3A4200%2Flogin&state=").data = "https://www.linkedin.com/oauth/v2/authorization".data ++ '?' :: "response_type=code&client_id=YOUR_LINKEDIN_CLIENT_ID&redirect_uri=http%3A%2F%2Flocalhost%3A4200%2Flogin&state=".data from by decide]
    simp [List.append_assoc]
  have hq2 : (breakOn '?' (getLinkedInAuthUrl rand s).2.data).2
      = "response_type=code&client_id=YOUR_LINKEDIN_CLIENT_ID&redirect_uri=http%3A%2F%2Flocalhost%3A4200%2Flogin&state=".data
        ++ (nonce.data ++ "&scope=r_liteprofile%20r_emailaddress".data) := by
    rw [hdata, breakOn_append '?' _ _ (by decide)]
  have hq4 : '&' ∉ "state=".data ++ nonce.data := by
    intro hc
    rcases List.mem_append.mp hc with hc | hc
    · revert hc; decide
    · exact absurd (hmem _ hc) (by decide)
  have hrest : "response_type=code&client_id=YOUR_LINKEDIN_CLIENT_ID&redirect_uri=http%3A%2F%2Flocalhost%3A4200%2Flogin&state=".data
        ++ (nonce.data ++ "&scope=r_liteprofile%20r_emailaddress".data)
      = "response_type=code".data ++ '&' :: ("client_id=YOUR_LINKEDIN_CLIENT_ID".data ++ '&' :: ("redirect_uri=http%3A%2F%2Flocalhost%3A4200%2Flogin".data ++ '&' :: (("state=".data ++ nonce.data) ++ '&' :: "scope=r_liteprofile%20r_emailaddress".data))) := by
    rw [show "response_type=code&client_id=YOUR_LINKEDIN_CLIENT_ID&redirect_uri=http%3A%2F%2Flocalhost%3A4200%2Flogin&state=".data = "response_type=code".data ++ '&' :: ("client_id=YOUR_LINKEDIN_CLIENT_ID".data ++ '&' :: ("redirect_uri=http%3A%2F%2Flocalhost%3A4200%2Flogin".data ++ '&' :: "state=".data)) from by decide]
    rw [show "&scope=r_liteprofile%20r_emailaddress".data = '&' :: "scope=r_liteprofile%20r_emailaddress".data from by decide]
    simp [List.append_assoc]
  have hsplit : splitOnSep '&' ((breakOn '?' (getLinkedInAuthUrl rand s).2.data).2)
      = ["response_type=code".data, "client_id=YOUR_LINKEDIN_CLIENT_ID".data,
         "redirect_uri=http%3A%2F%2Flocalhost%3A4200%2Flogin".data,
         "state=".data ++ nonce.data, "scope=r_liteprofile%20r_emailaddress".data] := by
    rw [hq2, hrest]
    rw [splitOnSep_append '&' _ _ (by decide)]
    rw [splitOnSep_append '&' _ _ (by decide)]
    rw [splitOnSep_append '&' _ _ (by decide)]
    rw [splitOnSep_append '&' _ _ hq4]
    rw [splitOnSep_of_not_mem '&' _ (by decide)]
  have hmid : breakOn '=' ("state=".data ++ nonce.data) = ("state".data, nonce.data) := by
    rw [show "state=".data ++ nonce.data = "state".data ++ '=' :: nonce.data from by
      rw [show "state=".data = "state".data ++ ['='] from by decide]
      simp [List.append_assoc]]
    exact breakOn_append '=' _ _ (by decide)
  show (splitOnSep '&' ((breakOn '?' (getLinkedInAuthUrl rand s).2.data).2)).map
      (fun seg => ((breakOn '=' seg).1.asString, (breakOn '=' seg).2.asString)) = _
  rw [hsplit]
  simp only [List.map_cons, List.map_nil, hmid, asString_data]
  simp only [List.cons.injEq]
  refine ⟨by decide, by decide, by decide, rfl, by decide, trivial⟩

/-- C8 witness: with all `Math.random()` draws equal to `0`, the call on a
fresh state persists the nonce it embeds as the `state` parameter. -/
theorem C8_witness :
    getItem (getLinkedInAuthUrl (fun _ => 0) emptyState).1.storage "linkedin_state"
        = some (generateRandomString (fun _ => 0) 16) ∧
    queryPairs (getLinkedInAuthUrl (fun _ => 0) emptyState).2
        = [("response_type", "code"),
           ("client_id", "YOUR_LINKEDIN_CLIENT_ID"),
           ("redirect_uri", "http%3A%2F%2Flocalhost%3A4200%2Flogin"),
           ("state", generateRandomString (fun _ => 0) 16),
           ("scope", "r_liteprofile%20r_emailaddress")] := by
  have h := C8_auth_url (fun _ => 0) emptyState (fun _ => ⟨le_refl 0, by norm_num⟩)
  exact ⟨h.1, h.2.2⟩

end ZenithCare
